import Mathlib

/-!
Shallow embedding of the aggregation and metric-derivation logic of
`src/dashboards/streamlit_app.py` (a pandas/streamlit dashboard), together
with theorems settling the specification claims about it.

Modelling conventions:
* a DataFrame is a `List` of structure values, one structure per entity;
* currency and float columns are `Rat`; integer columns are `Int`;
* date columns are `Option Int` (days since an epoch; `none` models `NaT`);
* a float column value that pandas would render non-finite (`inf`/`NaN`,
  e.g. division by zero) is modelled as `none` in an `Option Rat` column;
* python `//` (floor division) on integer columns is `Int.fdiv`.
-/

namespace RealEstateDash

/-- A row of `dotloop.csv` (deals). Dates are `Option Int` days; `none` is `NaT`. -/
structure Deal where
  loop_id : String
  listing_agent_id : String
  deal_status : String
  expected_close_date : Option Int
  actual_close_date : Option Int
deriving Repr, DecidableEq

/-- A row of `quickbooks.csv` (invoices). -/
structure Invoice where
  deal_id : String
  agent_id : String
  net_commission : Rat
  invoice_date : Option Int
  paid_date : Option Int
deriving Repr, DecidableEq

/-- A row of `agents.csv`. -/
structure Agent where
  agent_id : String
  full_name : String
deriving Repr, DecidableEq

/-- A row of `ads.csv` (ad campaigns). -/
structure AdCampaign where
  utm_campaign : String
  platform : String
  ad_spend : Rat
  leads_generated : Int
deriving Repr, DecidableEq

/-- Line 28: loop ids of deals whose `deal_status` is `"Under Contract"`. -/
def underContractIds (dotloop : List Deal) : List String :=
  (dotloop.filter (fun d => d.deal_status = "Under Contract")).map Deal.loop_id

/-- Line 29: invoices whose `deal_id` is in `under_contract_ids` (`Series.isin`). -/
def forecastInvoices (dotloop : List Deal) (quickbooks : List Invoice) : List Invoice :=
  quickbooks.filter (fun inv => (underContractIds dotloop).contains inv.deal_id)

/-- Line 30: the expected-commission metric, `forecast["net_commission"].sum()`. -/
def expectedCommission (dotloop : List Deal) (quickbooks : List Invoice) : Rat :=
  ((forecastInvoices dotloop quickbooks).map Invoice.net_commission).sum

lemma mem_underContractIds {dotloop : List Deal} {s : String} :
    s ∈ underContractIds dotloop ↔
      ∃ dl ∈ dotloop, dl.deal_status = "Under Contract" ∧ dl.loop_id = s := by
  simp [underContractIds, List.mem_map, List.mem_filter]
  constructor
  · rintro ⟨dl, ⟨hmem, hst⟩, hid⟩
    exact ⟨dl, hmem, by simpa using hst, hid⟩
  · rintro ⟨dl, hmem, hst, hid⟩
    exact ⟨dl, ⟨hmem, by simpa using hst⟩, hid⟩

/-- C1. The expected-commission metric equals the sum, over all invoices, of
`net_commission` for exactly those invoices whose `deal_id` occurs among the
`loop_id` values of deals with `deal_status = "Under Contract"`; every other
invoice contributes `0`. -/
theorem expectedCommission_eq_sum_underContract
    (dotloop : List Deal) (quickbooks : List Invoice) :
    expectedCommission dotloop quickbooks =
      (quickbooks.map (fun inv =>
        if ∃ dl ∈ dotloop, dl.deal_status = "Under Contract" ∧ dl.loop_id = inv.deal_id
        then inv.net_commission else 0)).sum := by
  induction quickbooks with
  | nil => simp [expectedCommission, forecastInvoices]
  | cons inv rest ih =>
    have hcontains : ((underContractIds dotloop).contains inv.deal_id = true) ↔
        ∃ dl ∈ dotloop, dl.deal_status = "Under Contract" ∧ dl.loop_id = inv.deal_id := by
      rw [List.contains, List.elem_iff]
      exact mem_underContractIds
    by_cases h : ∃ dl ∈ dotloop, dl.deal_status = "Under Contract" ∧ dl.loop_id = inv.deal_id
    · have hb : (underContractIds dotloop).contains inv.deal_id = true := hcontains.mpr h
      simp only [expectedCommission, forecastInvoices, List.filter_cons, hb, if_pos h,
        List.map_cons, List.sum_cons, List.map_map]
      rw [← ih]
      rfl
    · have hb : (underContractIds dotloop).contains inv.deal_id = false := by
        by_contra hne
        exact h (hcontains.mp (by revert hne; cases (underContractIds dotloop).contains inv.deal_id <;> simp))
      simp only [expectedCommission, forecastInvoices, List.filter_cons, hb, if_neg h,
        List.map_cons, List.sum_cons, List.map_map, Bool.false_eq_true, if_false]
      rw [← ih]
      simp [expectedCommission, forecastInvoices]

/-- Witness for `expectedCommission_eq_sum_underContract` at a concrete input. -/
theorem expectedCommission_eq_sum_underContract_witness :
    expectedCommission
        [⟨"L1", "A1", "Under Contract", some 10, none⟩, ⟨"L2", "A1", "Closed", some 3, some 5⟩]
        [⟨"L1", "A1", 700, some 1, none⟩, ⟨"L2", "A1", 300, some 1, some 2⟩] =
      ([(⟨"L1", "A1", 700, some 1, none⟩ : Invoice), ⟨"L2", "A1", 300, some 1, some 2⟩].map
        (fun inv =>
          if ∃ dl ∈ [(⟨"L1", "A1", "Under Contract", some 10, none⟩ : Deal),
              ⟨"L2", "A1", "Closed", some 3, some 5⟩],
              dl.deal_status = "Under Contract" ∧ dl.loop_id = inv.deal_id
          then inv.net_commission else 0)).sum :=
  expectedCommission_eq_sum_underContract _ _

/-- C7. When no deal is `"Under Contract"`, the expected-commission metric is the
sum over an empty invoice selection, and a sum over the empty set is `0`. -/
theorem expectedCommission_eq_zero_of_no_underContract
    (dotloop : List Deal) (quickbooks : List Invoice)
    (h : ∀ dl ∈ dotloop, dl.deal_status ≠ "Under Contract") :
    expectedCommission dotloop quickbooks = 0 := by
  have hids : underContractIds dotloop = [] := by
    simp only [underContractIds, List.map_eq_nil_iff, List.filter_eq_nil_iff]
    intro dl hmem
    simpa using h dl hmem
  have hforecast : forecastInvoices dotloop quickbooks = [] := by
    simp [forecastInvoices, hids]
  simp [expectedCommission, hforecast]

/-- Witness for `expectedCommission_eq_zero_of_no_underContract`: with only a
`"Closed"` deal present, the metric evaluates to `0`. -/
theorem expectedCommission_eq_zero_of_no_underContract_witness :
    (∀ dl ∈ [(⟨"L2", "A1", "Closed", some 3, some 5⟩ : Deal)],
        dl.deal_status ≠ "Under Contract") ∧
      expectedCommission [⟨"L2", "A1", "Closed", some 3, some 5⟩]
        [⟨"L2", "A1", 300, some 1, some 2⟩] = 0 :=
  ⟨by decide, expectedCommission_eq_zero_of_no_underContract _ _ (by decide)⟩

/-! ### Marketing ROI pipeline (Marketing ROI tab, lines 86-93 and 128)

`merged = ads.copy()`
`merged["closed_deals"] = merged["leads_generated"] // 4`
`merged["cost_per_closed_deal"] = merged["ad_spend"] / merged["closed_deals"]`
`merged = merged[merged["closed_deals"] > 0]`
`merged["net_commission"] = merged["closed_deals"] * 5000`
`merged["roi"] = (merged["net_commission"] - merged["ad_spend"]) / merged["ad_spend"]`
`merged["leads_to_close_ratio"] = merged["closed_deals"] / merged["leads_generated"]`

A division whose denominator is `0` gives a non-finite float (`inf` or `NaN`)
in pandas; those values are modelled as `none`. -/

/-- Line 87: `closed_deals = leads_generated // 4` (python floor division). -/
def closedDealsOf (a : AdCampaign) : Int :=
  Int.fdiv a.leads_generated 4

/-- Line 88: `cost_per_closed_deal = ad_spend / closed_deals`; `none` models the
non-finite float pandas produces when `closed_deals = 0`. -/
def costPerClosedDeal (a : AdCampaign) : Option Rat :=
  if closedDealsOf a = 0 then none else some (a.ad_spend / (closedDealsOf a : Rat))

/-- Line 92: simulated revenue, `net_commission = closed_deals * 5000`. -/
def netCommissionSim (a : AdCampaign) : Rat :=
  (closedDealsOf a : Rat) * 5000

/-- Line 93: `roi = (net_commission - ad_spend) / ad_spend`; `none` models the
non-finite float pandas produces when `ad_spend = 0`. -/
def roiOf (a : AdCampaign) : Option Rat :=
  if a.ad_spend = 0 then none else some ((netCommissionSim a - a.ad_spend) / a.ad_spend)

/-- Line 128: `leads_to_close_ratio = closed_deals / leads_generated`; `none`
models the non-finite float pandas produces when `leads_generated = 0`. -/
def leadsToCloseRatio (a : AdCampaign) : Option Rat :=
  if a.leads_generated = 0 then none
  else some ((closedDealsOf a : Rat) / (a.leads_generated : Rat))

/-- A row of the `merged` frame after all derived columns are attached. -/
structure MarketingRow where
  utm_campaign : String
  platform : String
  ad_spend : Rat
  leads_generated : Int
  closed_deals : Int
  cost_per_closed_deal : Option Rat
  net_commission : Rat
  roi : Option Rat
  leads_to_close_ratio : Option Rat
deriving Repr, DecidableEq

/-- The marketing pipeline, lines 86-93 and 128: every derived column is a pure
per-row function, so attaching the columns and then filtering on
`closed_deals > 0` (line 89) is per-row mapping of the surviving ad rows; the
`leads_to_close_ratio` column is attached after the filter, to the same rows. -/
def marketingOutput (ads : List AdCampaign) : List MarketingRow :=
  (ads.filter (fun a => 0 < closedDealsOf a)).map (fun a =>
    { utm_campaign := a.utm_campaign
      platform := a.platform
      ad_spend := a.ad_spend
      leads_generated := a.leads_generated
      closed_deals := closedDealsOf a
      cost_per_closed_deal := costPerClosedDeal a
      net_commission := netCommissionSim a
      roi := roiOf a
      leads_to_close_ratio := leadsToCloseRatio a })

lemma closedDealsOf_pos_iff (a : AdCampaign) :
    0 < closedDealsOf a ↔ 4 ≤ a.leads_generated := by
  unfold closedDealsOf
  rw [Int.fdiv_eq_ediv _ (by norm_num)]
  omega

/-- C3. No row of the marketing output has `closed_deals = 0` or
`leads_generated = 0`: the filter on line 89 removes every such input row
(including all rows with `leads_generated = 0`, since their `closed_deals` is
`0 // 4 = 0`), so for those rows both ratio metrics are absent from the output
rather than present as `0` or `NaN`; on the rows that do survive, both metrics
are defined finite values. -/
theorem marketingOutput_no_zero_denominators
    (ads : List AdCampaign) (row : MarketingRow) (hmem : row ∈ marketingOutput ads) :
    0 < row.closed_deals ∧ 4 ≤ row.leads_generated ∧
      row.cost_per_closed_deal.isSome ∧ row.leads_to_close_ratio.isSome := by
  simp only [marketingOutput, List.mem_map, List.mem_filter] at hmem
  obtain ⟨a, ⟨-, hpos⟩, rfl⟩ := hmem
  have hpos' : 0 < closedDealsOf a := by simpa using hpos
  have hleads : 4 ≤ a.leads_generated := (closedDealsOf_pos_iff a).mp hpos'
  have hne : ¬ closedDealsOf a = 0 := by omega
  have hne' : ¬ a.leads_generated = 0 := by omega
  refine ⟨hpos', hleads, ?_, ?_⟩
  · simp [costPerClosedDeal, hne]
  · simp [leadsToCloseRatio, hne']

/-- Witness for `marketingOutput_no_zero_denominators` at a concrete input that
also carries a zero-lead campaign (which is absent from the output). -/
theorem marketingOutput_no_zero_denominators_witness :
    (⟨"c1", "fb", 1000, 40, 10, some 100, 50000, some 49, some (1/4)⟩ : MarketingRow) ∈
        marketingOutput [⟨"c0", "fb", 500, 0⟩, ⟨"c1", "fb", 1000, 40⟩] ∧
      (0 < (10 : Int) ∧ 4 ≤ (40 : Int) ∧
        (some (100 : Rat)).isSome ∧ (some ((1 : Rat)/4)).isSome) := by
  have hmem : (⟨"c1", "fb", 1000, 40, 10, some 100, 50000, some 49, some (1/4)⟩ : MarketingRow) ∈
      marketingOutput [⟨"c0", "fb", 500, 0⟩, ⟨"c1", "fb", 1000, 40⟩] := by
    have hc0 : closedDealsOf ⟨"c0", "fb", 500, 0⟩ = 0 := by decide
    have hc : closedDealsOf ⟨"c1", "fb", 1000, 40⟩ = 10 := by decide
    norm_num [marketingOutput, List.filter_cons, costPerClosedDeal, netCommissionSim,
      roiOf, leadsToCloseRatio, hc, hc0]
  exact ⟨hmem, marketingOutput_no_zero_denominators _ _ hmem⟩

/-- C5. The worked example: the campaign row with `ad_spend = 1000` and
`leads_generated = 40` yields `closed_deals = 10`, `cost_per_closed_deal = 100`,
simulated `net_commission = 50000`, and `roi = (10*5000 - 1000)/1000 = 49`. -/
theorem marketingOutput_example :
    marketingOutput [⟨"c1", "fb", 1000, 40⟩] =
      [⟨"c1", "fb", 1000, 40, 10, some 100, 50000, some 49, some (1/4)⟩] := by
  have hc : closedDealsOf ⟨"c1", "fb", 1000, 40⟩ = 10 := by decide
  norm_num [marketingOutput, List.filter_cons, costPerClosedDeal, netCommissionSim,
    roiOf, leadsToCloseRatio, hc]

/-- C9 counterexample. For the output row of the campaign with `ad_spend = 0`
and `leads_generated = 4` (present in the output, since `closed_deals = 1 > 0`),
`roi` is not a finite number at all — pandas computes `(5000 - 0) / 0 = inf`,
modelled `none` — so the identity `roi = 5000 / cost_per_closed_deal - 1`
between the derived metrics fails for that row. -/
theorem roi_cpcd_identity_cex :
    ¬ (∀ row ∈ marketingOutput [⟨"z", "fb", 0, 4⟩],
        ∃ r c, row.roi = some r ∧ row.cost_per_closed_deal = some c ∧
          r = 5000 / c - 1) := by
  intro h
  have hc : closedDealsOf ⟨"z", "fb", 0, 4⟩ = 1 := by decide
  have hmem : (⟨"z", "fb", 0, 4, 1, some 0, 5000, none, some (1/4)⟩ : MarketingRow) ∈
      marketingOutput [⟨"z", "fb", 0, 4⟩] := by
    norm_num [marketingOutput, List.filter_cons, costPerClosedDeal, netCommissionSim,
      roiOf, leadsToCloseRatio, hc]
  obtain ⟨r, c, hr, -, -⟩ := h _ hmem
  simp at hr

/-- C9 amended. For every marketing-output row whose `ad_spend` is nonzero, the
derived metrics are finite and satisfy both `roi = 5000 / cost_per_closed_deal - 1`
and `roi * ad_spend = 5000 * closed_deals - ad_spend`; when `ad_spend = 0` the
`roi` column is non-finite and the identity does not apply. -/
theorem roi_eq_revenue_per_cpcd
    (ads : List AdCampaign) (row : MarketingRow)
    (hmem : row ∈ marketingOutput ads) (hspend : row.ad_spend ≠ 0) :
    ∃ r c, row.roi = some r ∧ row.cost_per_closed_deal = some c ∧ c ≠ 0 ∧
      r = 5000 / c - 1 ∧
      r * row.ad_spend = 5000 * (row.closed_deals : Rat) - row.ad_spend := by
  simp only [marketingOutput, List.mem_map, List.mem_filter] at hmem
  obtain ⟨a, ⟨-, hpos⟩, rfl⟩ := hmem
  have hpos' : 0 < closedDealsOf a := by simpa using hpos
  have hcdz : ¬ closedDealsOf a = 0 := by omega
  have hcd : (closedDealsOf a : Rat) ≠ 0 := by exact_mod_cast hcdz
  have hs : a.ad_spend ≠ 0 := hspend
  refine ⟨(netCommissionSim a - a.ad_spend) / a.ad_spend,
    a.ad_spend / (closedDealsOf a : Rat), ?_, ?_, ?_, ?_, ?_⟩
  · simp [roiOf, hs]
  · simp [costPerClosedDeal, hcdz]
  · exact div_ne_zero hs hcd
  · rw [netCommissionSim]
    field_simp
    ring
  · rw [netCommissionSim]
    field_simp
    ring

/-- Witness for `roi_eq_revenue_per_cpcd` at the worked example row. -/
theorem roi_eq_revenue_per_cpcd_witness :
    (⟨"c1", "fb", 1000, 40, 10, some 100, 50000, some 49, some (1/4)⟩ : MarketingRow) ∈
        marketingOutput [⟨"c1", "fb", 1000, 40⟩] ∧
      ((⟨"c1", "fb", 1000, 40, 10, some 100, 50000, some 49, some (1/4)⟩ :
          MarketingRow).ad_spend ≠ 0) ∧
      (∃ r c,
        (⟨"c1", "fb", 1000, 40, 10, some 100, 50000, some 49, some (1/4)⟩ :
            MarketingRow).roi = some r ∧
        (⟨"c1", "fb", 1000, 40, 10, some 100, 50000, some 49, some (1/4)⟩ :
            MarketingRow).cost_per_closed_deal = some c ∧ c ≠ 0 ∧
        r = 5000 / c - 1 ∧
        r * (⟨"c1", "fb", 1000, 40, 10, some 100, 50000, some 49, some (1/4)⟩ :
            MarketingRow).ad_spend =
          5000 * ((⟨"c1", "fb", 1000, 40, 10, some 100, 50000, some 49, some (1/4)⟩ :
            MarketingRow).closed_deals : Rat) -
            (⟨"c1", "fb", 1000, 40, 10, some 100, 50000, some 49, some (1/4)⟩ :
              MarketingRow).ad_spend) := by
  have hc : closedDealsOf ⟨"c1", "fb", 1000, 40⟩ = 10 := by decide
  have hmem : (⟨"c1", "fb", 1000, 40, 10, some 100, 50000, some 49, some (1/4)⟩ :
      MarketingRow) ∈ marketingOutput [⟨"c1", "fb", 1000, 40⟩] := by
    norm_num [marketingOutput, List.filter_cons, costPerClosedDeal, netCommissionSim,
      roiOf, leadsToCloseRatio, hc]
  exact ⟨hmem, by norm_num, roi_eq_revenue_per_cpcd _ _ hmem (by norm_num)⟩

/-! ### Agent close delay (Agent Performance tab, lines 77-79)

`if not deals.empty:`
`    deals["close_time"] = (pd.to_datetime(deals["actual_close_date"]) -`
`                           pd.to_datetime(deals["expected_close_date"])).dt.days`
`    st.metric("Avg Close Delay", f"{deals['close_time'].mean():.1f} days")`

A row whose `actual_close_date` (or `expected_close_date`) is `NaT` gets a
`NaN` close time, modelled `none`; `Series.mean` skips `NaN` values and is
itself `NaN` when every value is `NaN`.  The emitted metric is therefore
`Option (Option Rat)`: outer `none` means the guard `if not deals.empty`
suppressed the metric, `some none` means the metric was emitted with value
`NaN`, and `some (some v)` means it was emitted with value `v`. -/

/-- Line 78, per row: `actual_close_date - expected_close_date` in whole days;
`none` models the `NaN` produced when either date is `NaT`. -/
def closeTime (d : Deal) : Option Int :=
  match d.actual_close_date, d.expected_close_date with
  | some a, some e => some (a - e)
  | _, _ => none

/-- `Series.mean` over the non-`NaN` values of a column: `none` (`NaN`) when
there is no such value. -/
def listMeanRat (xs : List Rat) : Option Rat :=
  if xs.isEmpty then none else some (xs.sum / (xs.length : Rat))

/-- Lines 77-79: the Avg Close Delay metric for an agent's deal list. -/
def avgCloseDelay (deals : List Deal) : Option (Option Rat) :=
  if deals.isEmpty then none
  else some (listMeanRat ((deals.filterMap closeTime).map (fun (n : Int) => (n : Rat))))

lemma filterMap_closeTime (deals : List Deal) :
    deals.filterMap closeTime =
      (deals.filter (fun d =>
          d.actual_close_date.isSome ∧ d.expected_close_date.isSome)).map
        (fun d => d.actual_close_date.getD 0 - d.expected_close_date.getD 0) := by
  induction deals with
  | nil => simp
  | cons d rest ih =>
    cases ha : d.actual_close_date <;> cases he : d.expected_close_date <;>
      simp [closeTime, List.filterMap_cons, List.filter_cons, ha, he, ih]

/-- C4 counterexample. An agent with exactly one deal, whose
`actual_close_date` is `NaT`: the set of deals with a non-null
`actual_close_date` is empty, yet the Avg Close Delay metric is still emitted
(the guard on line 77 only checks that the agent's deal list is nonempty), with
the `NaN` value of a mean over no numbers. -/
theorem avgCloseDelay_emitted_on_all_null_actual :
    ([(⟨"L9", "A1", "Under Contract", some 100, none⟩ : Deal)].filter
        (fun d => d.actual_close_date.isSome) = []) ∧
      avgCloseDelay [⟨"L9", "A1", "Under Contract", some 100, none⟩] ≠ none ∧
      avgCloseDelay [⟨"L9", "A1", "Under Contract", some 100, none⟩] = some none := by
  refine ⟨by decide, ?_, by decide⟩
  decide

/-- C4 amended. `close_delay_days` is `actual_close_date - expected_close_date`
in whole days, and the mean averages exactly the deals where both dates are
non-null (rows with a `NaT` date yield `NaN` and are skipped); the metric is
suppressed exactly when the agent's whole deal list is empty — when the list is
nonempty the metric is always emitted, and a finite emitted value forces at
least one deal with both dates non-null (so a mean over an empty set is never a
finite output, though an all-`NaT` nonempty deal list does emit `NaN`). -/
theorem avgCloseDelay_characterization (deals : List Deal) :
    (avgCloseDelay deals = none ↔ deals = []) ∧
      (deals ≠ [] →
        avgCloseDelay deals =
          some (listMeanRat ((deals.filter (fun d =>
              d.actual_close_date.isSome ∧ d.expected_close_date.isSome)).map
            (fun d =>
              ((d.actual_close_date.getD 0 - d.expected_close_date.getD 0 : Int) : Rat))))) ∧
      (∀ v : Rat, avgCloseDelay deals = some (some v) →
        deals.filter (fun d =>
          d.actual_close_date.isSome ∧ d.expected_close_date.isSome) ≠ []) := by
  have hemit : deals ≠ [] →
      avgCloseDelay deals =
        some (listMeanRat ((deals.filter (fun d =>
            d.actual_close_date.isSome ∧ d.expected_close_date.isSome)).map
          (fun d =>
            ((d.actual_close_date.getD 0 - d.expected_close_date.getD 0 : Int) : Rat)))) := by
    intro hne
    have hempty : deals.isEmpty = false := by
      cases deals with
      | nil => exact absurd rfl hne
      | cons a l => rfl
    rw [avgCloseDelay, hempty, if_neg (by simp), filterMap_closeTime, List.map_map]
    rfl
  refine ⟨?_, hemit, ?_⟩
  · constructor
    · intro h
      by_contra hne
      rw [hemit hne] at h
      exact Option.noConfusion h
    · rintro rfl
      rfl
  · intro v hv hfilter
    have hne : deals ≠ [] := by
      rintro rfl
      rw [show avgCloseDelay [] = none from rfl] at hv
      exact Option.noConfusion hv
    rw [hemit hne, hfilter] at hv
    simp [listMeanRat] at hv

/-- Witness for `avgCloseDelay_characterization`: one deal closed two days
late yields an emitted mean delay of `2` days. -/
theorem avgCloseDelay_characterization_witness :
    ([(⟨"L1", "A1", "Closed", some 3, some 5⟩ : Deal)] ≠ []) ∧
      avgCloseDelay [⟨"L1", "A1", "Closed", some 3, some 5⟩] =
        some (listMeanRat (([(⟨"L1", "A1", "Closed", some 3, some 5⟩ : Deal)].filter
            (fun d => d.actual_close_date.isSome ∧ d.expected_close_date.isSome)).map
          (fun d =>
            ((d.actual_close_date.getD 0 - d.expected_close_date.getD 0 : Int) : Rat)))) ∧
      avgCloseDelay [⟨"L1", "A1", "Closed", some 3, some 5⟩] = some (some 2) ∧
      [(⟨"L1", "A1", "Closed", some 3, some 5⟩ : Deal)].filter
          (fun d => d.actual_close_date.isSome ∧ d.expected_close_date.isSome) ≠ [] := by
  have hval : avgCloseDelay [⟨"L1", "A1", "Closed", some 3, some 5⟩] = some (some 2) := by
    have hct : closeTime ⟨"L1", "A1", "Closed", some 3, some 5⟩ = some 2 := by decide
    norm_num [avgCloseDelay, listMeanRat, hct, List.filterMap_cons]
  exact ⟨by decide, (avgCloseDelay_characterization _).2.1 (by decide), hval,
    (avgCloseDelay_characterization _).2.2 2 hval⟩

/-! ### Joins (Overview tab, lines 34-38)

`closed_deals = dotloop[dotloop["deal_status"] == "Closed"]`
`leaderboard = closed_deals.merge(quickbooks, left_on="loop_id", right_on="deal_id")`
`leaderboard = leaderboard.merge(agents, on="agent_id", how="left")`

`DataFrame.merge` defaults to an inner join: one output row per matching pair
of input rows (duplicate keys multiply), unmatched rows on either side dropped
without error.  With `how="left"`, a left row with no match is kept once, its
right-hand fields null. -/

/-- Number of rows of `rows` whose key is `k`. -/
def keyCount {α κ : Type} [DecidableEq κ] (rows : List α) (key : α → κ) (k : κ) : Nat :=
  (rows.filter (fun a => key a = k)).length

/-- `left.merge(right, left_on, right_on)` (inner join, pandas default): one
output row per pair of input rows with equal keys; pairs are emitted grouped by
left row, and unmatched rows on either side are silently dropped. -/
def innerJoin {α β κ : Type} [DecidableEq κ]
    (l : List α) (r : List β) (kl : α → κ) (kr : β → κ) : List (α × β) :=
  l.flatMap (fun a => (r.filter (fun b => kr b = kl a)).map (fun b => (a, b)))

lemma innerJoin_mem {α β κ : Type} [DecidableEq κ]
    {l : List α} {r : List β} {kl : α → κ} {kr : β → κ} {p : α × β}
    (hp : p ∈ innerJoin l r kl kr) : p.1 ∈ l ∧ p.2 ∈ r ∧ kl p.1 = kr p.2 := by
  simp only [innerJoin, List.mem_flatMap, List.mem_map, List.mem_filter] at hp
  obtain ⟨a, ha, b, ⟨hb, hkey⟩, rfl⟩ := hp
  have hkey' : kr b = kl a := by simpa using hkey
  exact ⟨ha, hb, hkey'.symm⟩

lemma length_innerJoin_eq_sum_counts {α β κ : Type} [DecidableEq κ]
    (l : List α) (r : List β) (kl : α → κ) (kr : β → κ) :
    (innerJoin l r kl kr).length = ((l.map kl).map (fun k => keyCount r kr k)).sum := by
  induction l with
  | nil => simp [innerJoin]
  | cons a t ih => simp [innerJoin, keyCount, List.flatMap_cons] at ih ⊢; omega

lemma count_map_key {α κ : Type} [DecidableEq κ] (l : List α) (key : α → κ) (k : κ) :
    (l.map key).count k = keyCount l key k := by
  induction l with
  | nil => simp [keyCount]
  | cons a t ih =>
    by_cases h : key a = k <;>
      simp [keyCount, List.count_cons, List.filter_cons, h] at ih ⊢ <;> omega

lemma list_sum_map_eq_sum_toFinset {κ : Type} [DecidableEq κ] (xs : List κ) (g : κ → ℕ) :
    (xs.map g).sum = ∑ k ∈ xs.toFinset, xs.count k * g k := by
  have h := Finset.sum_multiset_map_count (xs : Multiset κ) g
  simpa using h

/-- C2. The inner join on a key produces one row per matching pair: its size is
the sum, over the key values occurring on either side, of (count of left rows
with that key) times (count of right rows with that key) — a key present on
only one side contributes a zero term — and every output row pairs a left row
with a right row of equal key, so unmatched rows are silently excluded and the
join is a total function that cannot fail. -/
theorem innerJoin_size_and_members {α β κ : Type} [DecidableEq κ]
    (l : List α) (r : List β) (kl : α → κ) (kr : β → κ) :
    (innerJoin l r kl kr).length =
        ∑ k ∈ ((l.map kl).toFinset ∪ (r.map kr).toFinset),
          keyCount l kl k * keyCount r kr k ∧
      ∀ p ∈ innerJoin l r kl kr, p.1 ∈ l ∧ p.2 ∈ r ∧ kl p.1 = kr p.2 := by
  constructor
  · rw [length_innerJoin_eq_sum_counts, list_sum_map_eq_sum_toFinset]
    have hstep : ∑ k ∈ (l.map kl).toFinset, (l.map kl).count k * keyCount r kr k =
        ∑ k ∈ (l.map kl).toFinset, keyCount l kl k * keyCount r kr k :=
      Finset.sum_congr rfl fun k _ => by rw [count_map_key]
    rw [hstep]
    refine Finset.sum_subset Finset.subset_union_left ?_
    intro k hk1 hk2
    have hzero : keyCount l kl k = 0 := by
      simp only [keyCount, List.length_eq_zero, List.filter_eq_nil_iff]
      intro a ha
      simp only [List.mem_toFinset, List.mem_map, not_exists, not_and] at hk2
      simpa using hk2 a ha
    simp [hzero]
  · exact fun p hp => innerJoin_mem hp

/-- Witness for `innerJoin_size_and_members`: two invoices match the one closed
deal key, one invoice references a key absent from the deals. -/
theorem innerJoin_size_and_members_witness :
    ((innerJoin
          [(⟨"L1", "A1", "Closed", some 3, some 5⟩ : Deal)]
          [(⟨"L1", "A1", 700, some 1, none⟩ : Invoice),
            ⟨"L1", "A2", 300, some 1, some 2⟩, ⟨"L7", "A1", 50, none, none⟩]
          Deal.loop_id Invoice.deal_id).length =
        ∑ k ∈ (([(⟨"L1", "A1", "Closed", some 3, some 5⟩ : Deal)].map Deal.loop_id).toFinset ∪
            ([(⟨"L1", "A1", 700, some 1, none⟩ : Invoice),
              ⟨"L1", "A2", 300, some 1, some 2⟩,
              ⟨"L7", "A1", 50, none, none⟩].map Invoice.deal_id).toFinset),
          keyCount [(⟨"L1", "A1", "Closed", some 3, some 5⟩ : Deal)] Deal.loop_id k *
            keyCount [(⟨"L1", "A1", 700, some 1, none⟩ : Invoice),
              ⟨"L1", "A2", 300, some 1, some 2⟩, ⟨"L7", "A1", 50, none, none⟩]
              Invoice.deal_id k) ∧
      ((⟨"L1", "A1", "Closed", some 3, some 5⟩ : Deal),
          (⟨"L1", "A1", 700, some 1, none⟩ : Invoice)).1 ∈
          [(⟨"L1", "A1", "Closed", some 3, some 5⟩ : Deal)] ∧
        ((⟨"L1", "A1", "Closed", some 3, some 5⟩ : Deal),
          (⟨"L1", "A1", 700, some 1, none⟩ : Invoice)).2 ∈
          [(⟨"L1", "A1", 700, some 1, none⟩ : Invoice),
            ⟨"L1", "A2", 300, some 1, some 2⟩, ⟨"L7", "A1", 50, none, none⟩] ∧
        Deal.loop_id ((⟨"L1", "A1", "Closed", some 3, some 5⟩ : Deal),
          (⟨"L1", "A1", 700, some 1, none⟩ : Invoice)).1 =
          Invoice.deal_id ((⟨"L1", "A1", "Closed", some 3, some 5⟩ : Deal),
            (⟨"L1", "A1", 700, some 1, none⟩ : Invoice)).2 :=
  ⟨(innerJoin_size_and_members _ _ _ _).1,
    (innerJoin_size_and_members _ _ _ _).2 _ (by decide)⟩

/-- `left.merge(right, on, how="left")`: like the inner join, but a left row
with no matching right row is kept once with null right-hand fields. -/
def leftJoin {α β κ : Type} [DecidableEq κ]
    (l : List α) (r : List β) (kl : α → κ) (kr : β → κ) : List (α × Option β) :=
  l.flatMap (fun a =>
    if (r.filter (fun b => kr b = kl a)).isEmpty then [(a, none)]
    else (r.filter (fun b => kr b = kl a)).map (fun b => (a, some b)))

/-- Line 34: `closed_deals = dotloop[dotloop["deal_status"] == "Closed"]`. -/
def closedDeals (dotloop : List Deal) : List Deal :=
  dotloop.filter (fun d => d.deal_status = "Closed")

/-- Line 35: `leaderboard = closed_deals.merge(quickbooks, left_on="loop_id",
right_on="deal_id")`. -/
def leaderboard (dotloop : List Deal) (quickbooks : List Invoice) :
    List (Deal × Invoice) :=
  innerJoin (closedDeals dotloop) quickbooks Deal.loop_id Invoice.deal_id

/-- Line 38: `leaderboard = leaderboard.merge(agents, on="agent_id", how="left")`. -/
def leaderboardAgents (dotloop : List Deal) (quickbooks : List Invoice)
    (agents : List Agent) : List ((Deal × Invoice) × Option Agent) :=
  leftJoin (leaderboard dotloop quickbooks) agents
    (fun p => p.2.agent_id) Agent.agent_id

/-- `groupby(key)[col].sum()` over already-keyed pairs: one output row per
distinct key, in first-occurrence order (the order among groups is a
presentation concern — the code re-sorts the summary — and does not affect the
claims below). -/
def sumByKey (pairs : List (String × Rat)) : List (String × Rat) :=
  (pairs.map Prod.fst).dedup.map
    (fun k => (k, ((pairs.filter (fun p => p.1 = k)).map Prod.snd).sum))

/-- Lines 41-42: `leaderboard.groupby("full_name")["net_commission"].sum()`.
pandas `groupby` drops rows whose group key is null (`dropna=True` default), so
a joined row whose `agent_id` matched no agent — `full_name` is `NaN` there —
is dropped here; this is the `filterMap` over the agent column. -/
def agentSummary (dotloop : List Deal) (quickbooks : List Invoice)
    (agents : List Agent) : List (String × Rat) :=
  sumByKey ((leaderboardAgents dotloop quickbooks agents).filterMap
    (fun p => p.2.map (fun ag => (ag.full_name, p.1.2.net_commission))))

/-- The same summary computed with an inner join to agents instead of the left
join: the refinement target of C10. -/
def agentSummaryInner (dotloop : List Deal) (quickbooks : List Invoice)
    (agents : List Agent) : List (String × Rat) :=
  sumByKey ((innerJoin (leaderboard dotloop quickbooks) agents
      (fun p => p.2.agent_id) Agent.agent_id).map
    (fun p => (p.2.full_name, p.1.2.net_commission)))

lemma leftJoin_filterMap_eq_innerJoin_map {α β κ γ : Type} [DecidableEq κ]
    (l : List α) (r : List β) (kl : α → κ) (kr : β → κ) (g : α → β → γ) :
    (leftJoin l r kl kr).filterMap (fun p => p.2.map (fun b => g p.1 b)) =
      (innerJoin l r kl kr).map (fun p => g p.1 p.2) := by
  induction l with
  | nil => simp [leftJoin, innerJoin]
  | cons a t ih =>
    simp only [leftJoin, innerJoin, List.flatMap_cons, List.filterMap_append,
      List.map_append] at ih ⊢
    rw [ih]
    by_cases h : (r.filter (fun b => kr b = kl a)).isEmpty
    · have hnil : r.filter (fun b => kr b = kl a) = [] := by
        simpa [List.isEmpty_iff] using h
      simp [hnil]
    · rw [if_neg (by simpa using h)]
      congr 1
      rw [List.filterMap_map, List.map_map]
      exact congrFun (List.filterMap_eq_map (fun b => g a b)) _

/-- C10. Joining the closed-deal leaderboard to the agents table with left-join
semantics and then grouping on `full_name` is equivalent to an inner join:
joined rows whose `agent_id` matches no agent carry a null name and are dropped
by `groupby`, and every row of the resulting leaderboard carries the full name
of an actual agent — no row has a missing name. -/
theorem agentSummary_leftJoin_eq_innerJoin
    (dotloop : List Deal) (quickbooks : List Invoice) (agents : List Agent) :
    agentSummary dotloop quickbooks agents =
        agentSummaryInner dotloop quickbooks agents ∧
      ∀ entry ∈ agentSummary dotloop quickbooks agents,
        ∃ ag ∈ agents, ag.full_name = entry.1 := by
  have heq : agentSummary dotloop quickbooks agents =
      agentSummaryInner dotloop quickbooks agents := by
    rw [agentSummary, agentSummaryInner, leaderboardAgents]
    exact congrArg sumByKey (leftJoin_filterMap_eq_innerJoin_map
      (leaderboard dotloop quickbooks) agents (fun p => p.2.agent_id) Agent.agent_id
      (fun (t : Deal × Invoice) (ag : Agent) => (ag.full_name, t.2.net_commission)))
  refine ⟨heq, ?_⟩
  intro entry hentry
  rw [heq] at hentry
  simp only [agentSummaryInner, sumByKey, List.mem_map, List.mem_dedup] at hentry
  obtain ⟨k, hk, rfl⟩ := hentry
  obtain ⟨p, ⟨q, hq, rfl⟩, hname⟩ := hk
  exact ⟨q.2, (innerJoin_mem hq).2.1, by simpa using hname⟩

/-- Witness for `agentSummary_leftJoin_eq_innerJoin` at concrete tables with a
matched and an unmatched `agent_id`. -/
theorem agentSummary_leftJoin_eq_innerJoin_witness :
    (agentSummary
          [⟨"L1", "A1", "Closed", some 3, some 5⟩]
          [⟨"L1", "A1", 700, some 1, none⟩, ⟨"L1", "A9", 300, some 1, some 2⟩]
          [⟨"A1", "Ann Agent"⟩] =
        agentSummaryInner
          [⟨"L1", "A1", "Closed", some 3, some 5⟩]
          [⟨"L1", "A1", 700, some 1, none⟩, ⟨"L1", "A9", 300, some 1, some 2⟩]
          [⟨"A1", "Ann Agent"⟩]) ∧
      (∃ ag ∈ [(⟨"A1", "Ann Agent"⟩ : Agent)],
        ag.full_name = (("Ann Agent", (700 : Rat)) : String × Rat).1) := by
  have h := agentSummary_leftJoin_eq_innerJoin
    [⟨"L1", "A1", "Closed", some 3, some 5⟩]
    [⟨"L1", "A1", 700, some 1, none⟩, ⟨"L1", "A9", 300, some 1, some 2⟩]
    [⟨"A1", "Ann Agent"⟩]
  refine ⟨h.1, h.2 ("Ann Agent", (700 : Rat)) ?_⟩
  simp [agentSummary, leaderboardAgents, leaderboard, closedDeals, innerJoin,
    leftJoin, sumByKey, List.filter_cons, List.flatMap_cons, List.filterMap_cons]

/-! ### Top-N lead ranking (Lead Scoring tab, lines 232-233)

`top_leads = fub.sort_values("lead_score", ascending=False).head(10)`

pandas `sort_values` on one column computes an ascending argsort of the column
and, for `ascending=False`, reverses the whole indexer.  The ascending argsort
uses numpy's default `kind="quicksort"` — introsort, which sorts columns of at
most 16 elements by plain insertion sort (stable) but permutes equal elements
unpredictably in the partitioning it applies to longer columns.  So the
program's tie order is pinned down only for columns of at most 16 rows: there
it is the reverse of input order.  For longer columns only properties
independent of tie order (the output is a permutation sorted descending on the
key, truncated by `head`) carry over to the program. -/

/-- A loaded date column: fully converted to datetimes, or — when some value
failed to parse — left unaltered as the original strings. -/
inductive DateColumn where
  | parsed (vals : List Int)
  | raw (vals : List String)
deriving Repr, DecidableEq

/-- All-or-nothing parse of a column's values. -/
def parseAll (parse : String → Option Int) : List String → Option (List Int)
  | [] => some []
  | s :: rest =>
    match parse s, parseAll parse rest with
    | some d, some ds => some (d :: ds)
    | _, _ => none

/-- One `parse_dates` column conversion of `read_csv` (lines 9-14): convert the
column when every value parses; otherwise return it unaltered. -/
def parseDateColumn (parse : String → Option Int) (col : List String) : DateColumn :=
  match parseAll parse col with
  | some ds => DateColumn.parsed ds
  | none => DateColumn.raw col

/-- Number of row values the load admits for the column. -/
def DateColumn.rowCount : DateColumn → Nat
  | DateColumn.parsed ds => ds.length
  | DateColumn.raw vs => vs.length

/-- A concrete per-value date parser for the concrete instances below: accepts
exactly the one date they contain. -/
def sampleDateParse : String → Option Int :=
  fun s => if s = "2024-01-01" then some 19723 else none

/-- C8 counterexample. A date column with one unparsable value: the load does
not fail — there is no error path at all — and both rows are admitted, the
column simply staying unconverted strings, contradicting the claimed
`MalformedInputError` and aborted load. -/
theorem parseDateColumn_admits_unparsable :
    sampleDateParse "not-a-date" = none ∧
      parseDateColumn sampleDateParse ["2024-01-01", "not-a-date"] =
        DateColumn.raw ["2024-01-01", "not-a-date"] ∧
      (parseDateColumn sampleDateParse ["2024-01-01", "not-a-date"]).rowCount = 2 := by
  decide

lemma parseAll_eq_none_of_bad (parse : String → Option Int) :
    ∀ col : List String, (∃ v ∈ col, parse v = none) → parseAll parse col = none := by
  intro col
  induction col with
  | nil => rintro ⟨v, hv, -⟩; simp at hv
  | cons s rest ih =>
    rintro ⟨v, hv, hnone⟩
    rcases List.mem_cons.mp hv with rfl | hvrest
    · simp [parseAll, hnone]
    · have hrest := ih ⟨v, hvrest, hnone⟩
      cases hps : parse s <;> simp [parseAll, hps, hrest]

/-- C8 amended. When any value of a `parse_dates` column fails to parse,
`read_csv` raises nothing and drops nothing: the whole column is returned
unaltered as strings, every row admitted. -/
theorem parseDateColumn_unparsable_keeps_column
    (parse : String → Option Int) (col : List String)
    (h : ∃ v ∈ col, parse v = none) :
    parseDateColumn parse col = DateColumn.raw col ∧
      (parseDateColumn parse col).rowCount = col.length := by
  have hnone := parseAll_eq_none_of_bad parse col h
  rw [parseDateColumn, hnone]
  exact ⟨rfl, rfl⟩

/-- Witness for `parseDateColumn_unparsable_keeps_column` at a concrete column. -/
theorem parseDateColumn_unparsable_keeps_column_witness :
    (∃ v ∈ ["2024-01-01", "not-a-date"], sampleDateParse v = none) ∧
      parseDateColumn sampleDateParse ["2024-01-01", "not-a-date"] =
          DateColumn.raw ["2024-01-01", "not-a-date"] ∧
        (parseDateColumn sampleDateParse ["2024-01-01", "not-a-date"]).rowCount =
          (["2024-01-01", "not-a-date"] : List String).length :=
  ⟨by decide, parseDateColumn_unparsable_keeps_column _ _ (by decide)⟩

end RealEstateDash
